import Mathlib

/-
Verification of the ELIZA response-generation engine (`eliza.py`).

The definitions below are a shallow embedding of the `Chatbot` class and its
helper functions.  Python dictionaries holding script entries become
association lists, in-place mutation of the script (reassembly rotation,
memory-rule rotation) becomes explicit functional update of the script, and
Python exceptions (`TypeError`, `KeyError`, `IndexError`) become an explicit
error type threaded through `Except`.  The redirection `while` loop of
`Chatbot._process_keystack`, which has no bound in the source, is given a
fuel parameter: a result of `none` means the loop performed that many
iterations without exiting, so divergence of the source is `none` for every
fuel value.

Regular expressions (`re.search` / `re.sub`) belong to the Python standard
library, not to this repository; a compiled pattern is embedded as an opaque
pair of functions: `search` decides whether the pattern matches a sentence
and `sub` performs the substitution of a replacement template into a
sentence.  Script rules used in concrete computations below carry no
decomposition pattern, so no behaviour of the claims depends on the inner
workings of the regex engine.

Python string primitives used by the source (`str.upper`, `str.startswith`,
slicing, `" ".join`, `re.split` on a character class) are modelled by
structurally recursive functions over the character list of a `String`, so
that every concrete run of the engine reduces by `rfl`/`decide`.
-/

namespace Eliza

/-- Python run-time exceptions that the engine can raise. -/
inductive PyError where
  | typeError
  | keyError
  | indexError
  deriving DecidableEq, Repr

/-- A compiled regular expression, embedded as its observable behaviour:
`search s` is the truthiness of `re.search(pattern, s, re.IGNORECASE)` and
`sub repl s` is `re.sub(pattern, repl, s, flags=re.IGNORECASE)`. -/
structure Pattern where
  search : String → Bool
  sub : String → String → String

/-- One transformation rule of a keyword: the optional `decomposition`
pattern, the mutable `reassembly` list, and the optional `pre` rewrite
template (`eliza.py`, module doc of `script`). -/
structure TRule where
  decomposition : Option Pattern
  reassembly : List String
  pre : Option String

/-- One script entry: optional `=` word substitution, optional `rank`,
optional `rules`, optional `memory` rules (`eliza.py`, `script` layout). -/
structure KeywordEntry where
  subst : Option String := none
  rank : Option Int := none
  rules : Option (List TRule) := none
  memory : Option (List TRule) := none

/-- A script: Python dict from keyword string to entry, as an association
list (dict keys are unique; lookup returns the first binding). -/
abbrev Script := List (String × KeywordEntry)

/-- `KEYWORD_START` from `eliza.py`. -/
def KEYWORD_START : String := ""

/-- `KEYWORD_NONE` from `eliza.py`. -/
def KEYWORD_NONE : String := "NONE"

/-- The mutable per-agent state: `self._script` and `self._memstack`. -/
structure ChatState where
  script : Script
  memstack : List String

/-- Python `str.upper()` (ASCII case mapping suffices for the scripts). -/
def strUpper (s : String) : String := String.mk (s.toList.map Char.toUpper)

/-- Python `resp.startswith("=")`. -/
def strStartsEq (s : String) : Bool :=
  match s.toList with
  | c :: _ => c = '='
  | [] => false

/-- Python `resp[1:]`. -/
def strTail (s : String) : String := String.mk (s.toList.drop 1)

/-- Python `" ".join(tokens)`. -/
def joinSp : List String → String
  | [] => ""
  | [t] => t
  | t :: rest => t ++ " " ++ joinSp rest

/-- Dict lookup `script.get(key)` / `script[key]` on the association list. -/
def lookupS : Script → String → Option KeywordEntry
  | [], _ => none
  | (k, e) :: rest, key => if k = key then some e else lookupS rest key

/-- In-place mutation of `script[key]["rules"]` (the list object returned by
`_get_rules` is aliased inside the script, so rotating it mutates the
entry). -/
def setRules : Script → String → List TRule → Script
  | [], _, _ => []
  | (k, e) :: rest, key, rs =>
    if k = key then (k, { e with rules := some rs }) :: rest
    else (k, e) :: setRules rest key rs

/-- In-place mutation of `script[key]["memory"]` (same aliasing as
`setRules`, for the memory rules used by `_add_to_memstack`). -/
def setMemory : Script → String → List TRule → Script
  | [], _, _ => []
  | (k, e) :: rest, key, rs =>
    if k = key then (k, { e with memory := some rs }) :: rest
    else (k, e) :: setMemory rest key rs

/-- Helper for `Chatbot._get_sentences`: `re.split(r'[\.\,]', text)`, split
on every `.` or `,`, keeping empty pieces. -/
def splitSentencesGo : List Char → List Char → List String
  | [], acc => [String.mk acc]
  | c :: rest, acc =>
    if c = '.' ∨ c = ',' then String.mk acc :: splitSentencesGo rest []
    else splitSentencesGo rest (acc ++ [c])

/-- `Chatbot._get_sentences`: text segmentation. -/
def getSentences (text : String) : List String :=
  splitSentencesGo text.toList []

/-- Helper for `Chatbot._get_tokens`: the character loop of the generator,
carrying the pending token characters. -/
def getTokensGo : List Char → List Char → List String
  | [], token => if token.isEmpty then [] else [String.mk token]
  | c :: cs, token =>
    if c = ' ' then
      if token.isEmpty then getTokensGo cs []
      else String.mk token :: getTokensGo cs []
    else if c = '.' ∨ c = ',' ∨ c = '?' ∨ c = '!' ∨ c = ';' then
      if token.isEmpty then String.mk [c] :: getTokensGo cs []
      else String.mk token :: String.mk [c] :: getTokensGo cs []
    else getTokensGo cs (token ++ [c])

/-- `Chatbot._get_tokens`: split a sentence into word tokens, with the
punctuation characters `. , ? ! ;` as single-character tokens. -/
def getTokens (text : String) : List String :=
  getTokensGo text.toList []

/-- The keystack-insertion block of `Chatbot._scan_sentence` (lines
858-863): start the stack at the first rules-bearing keyword, insert at the
front when the rank beats the rank of the current front entry
(`keystack[0][1]`), append at the back otherwise.  The accumulator is
`none` before the first rules-bearing keyword and otherwise holds the front
entry and the rest (the Python list is never empty once created, and
`keystack[0]` is only read on a non-empty list). -/
def scanInsert (ks : Option ((String × Int) × List (String × Int)))
    (key : String) (rank : Int) :
    Option ((String × Int) × List (String × Int)) :=
  match ks with
  | none => some ((key, rank), [])
  | some ((k0, r0), t) =>
    if rank > r0 then some ((key, rank), (k0, r0) :: t)
    else some ((k0, r0), t ++ [(key, rank)])

/-- Helper for `Chatbot._scan_sentence`: the token loop. -/
def scanGo (script : Script) :
    List String → Option ((String × Int) × List (String × Int)) →
    List String → Option (List (String × Int)) × List String
  | [], ks, alt => (ks.map fun p => p.1 :: p.2, alt)
  | tok :: rest, ks, alt =>
    let key := strUpper tok
    match lookupS script key with
    | none => scanGo script rest ks (alt ++ [tok])
    | some e =>
      let alt' := alt ++ [match e.subst with | some s => s | none => tok]
      match e.rules with
      | none => scanGo script rest ks alt'
      | some _ => scanGo script rest (scanInsert ks key (e.rank.getD 0)) alt'

/-- `Chatbot._scan_sentence`: walk the tokens, apply `=` substitutions,
collect the keystack, and rejoin the altered tokens with spaces. -/
def scanSentence (script : Script) (tokens : List String) :
    Option (List (String × Int)) × String :=
  let (ks, alt) := scanGo script tokens none []
  (ks, joinSp alt)

/-- `Chatbot._get_rules`: `self._script.get(keyword.upper())` followed by
`"rules" not in entry`.  When the keyword is absent, the membership test on
`None` raises `TypeError`; when the entry has no `"rules"` key the function
returns `None`. -/
def getRules (script : Script) (keyword : String) :
    Except PyError (Option (List TRule)) :=
  match lookupS script (strUpper keyword) with
  | none => .error .typeError
  | some e => .ok e.rules

/-- `Chatbot._get_response` on a rule list: find the first rule with no
decomposition or whose decomposition matches, rotate the head reassembly
template to the tail (raising `IndexError` on an empty reassembly list, as
`list.pop(0)` does), and build the response.  Returns the response, the
mutated matched rule, and the mutated rule list.  The sentence is `none`
exactly when Python would pass `None` (session start), in which case
`re.search(pattern, None)` raises `TypeError`. -/
def getResponse : List TRule → Option String →
    Except PyError (String × Option TRule × List TRule)
  | [], _ => .ok ("", none, [])
  | r :: rest, sentence =>
    match r.decomposition with
    | none =>
      match r.reassembly with
      | [] => .error .indexError
      | t :: ts =>
        let r' := { r with reassembly := ts ++ [t] }
        .ok (t, some r', r' :: rest)
    | some d =>
      match sentence with
      | none => .error .typeError
      | some s =>
        if d.search s then
          match r.reassembly with
          | [] => .error .indexError
          | t :: ts =>
            let r' := { r with reassembly := ts ++ [t] }
            .ok (d.sub t s, some r', r' :: rest)
        else
          match getResponse rest sentence with
          | .error e => .error e
          | .ok (resp, rule, rest') => .ok (resp, rule, r :: rest')

/-- `Chatbot._get_response` including the `transformation_rules is None`
guard (it returns `("", None)` and nothing is written back). -/
def getResponseO : Option (List TRule) → Option String →
    Except PyError (String × Option TRule × Option (List TRule))
  | none, _ => .ok ("", none, none)
  | some rs, sentence =>
    match getResponse rs sentence with
    | .error e => .error e
    | .ok (resp, rule, rs') => .ok (resp, rule, some rs')

/-- Write the mutated rule list of `_get_response` back into the script; a
`None` rule list means `_get_rules` returned `None` and no object was
mutated. -/
def writeRules (script : Script) (keyword : String) :
    Option (List TRule) → Script
  | none => script
  | some rs => setRules script (strUpper keyword) rs

/-- The `while resp.startswith("=")` redirection loop of
`Chatbot._process_keystack`, with fuel.  `none` means the fuel was spent
with the loop still running; the source has no iteration cap, so a
configuration on which every fuel yields `none` loops forever.  A normal
exit (including the `NEWKEY` break, which sets `resp = ""`) returns the
response, the script after rotations, and the possibly `pre`-rewritten
sentence. -/
def whileRedirect : Nat → Script → String → Option TRule → String →
    Option (Except PyError (String × Script × String))
  | fuel, script, resp, rule, sentence =>
    if strStartsEq resp then
      match fuel with
      | 0 => none
      | Nat.succ f =>
        match rule with
        | none => some (.error .typeError)
        | some r =>
          let sentRes : Except PyError String :=
            match r.pre with
            | none => .ok sentence
            | some p =>
              match r.decomposition with
              | none => .error .keyError
              | some d => .ok (d.sub p sentence)
          match sentRes with
          | .error e => some (.error e)
          | .ok sentence' =>
            let keyword := strTail resp
            match getRules script keyword with
            | .error e => some (.error e)
            | .ok rulesO =>
              match getResponseO rulesO (some sentence') with
              | .error e => some (.error e)
              | .ok (resp', rule', rulesO') =>
                let script' := writeRules script keyword rulesO'
                if resp' = "NEWKEY" then some (.ok ("", script', sentence'))
                else whileRedirect f script' resp' rule' sentence'
    else some (.ok (resp, script, sentence))

/-- The `for keyword, _ in keystack` loop of `Chatbot._process_keystack`:
per keyword, fetch the rules, get a response, handle a toplevel `NEWKEY`,
run the redirection loop, and stop at the first non-empty response. -/
def processKeystackGo (fuel : Nat) :
    List (String × Int) → Script → String →
    Option (Except PyError (String × Script × String))
  | [], script, sentence => some (.ok ("", script, sentence))
  | (keyword, _) :: rest, script, sentence =>
    match getRules script keyword with
    | .error e => some (.error e)
    | .ok rulesO =>
      match getResponseO rulesO (some sentence) with
      | .error e => some (.error e)
      | .ok (resp, rule, rulesO') =>
        let script' := writeRules script keyword rulesO'
        if resp = "NEWKEY" then processKeystackGo fuel rest script' sentence
        else
          match whileRedirect fuel script' resp rule sentence with
          | none => none
          | some (.error e) => some (.error e)
          | some (.ok (resp', script'', sentence')) =>
            if resp' = "" then processKeystackGo fuel rest script'' sentence'
            else some (.ok (resp', script'', sentence'))

/-- `Chatbot._process_keystack`, including the `keystack is None` guard. -/
def processKeystack (fuel : Nat) (keystack : Option (List (String × Int)))
    (script : Script) (sentence : String) :
    Option (Except PyError (String × Script × String)) :=
  match keystack with
  | none => some (.ok ("", script, sentence))
  | some l => processKeystackGo fuel l script sentence

/-- `Chatbot._add_to_memstack`: inspect only the head keystack entry; if its
keyword has memory rules, run `_get_response` on them (rotating the used
template in place) and append a non-empty result to the memory stack.
`self._script[top_keyword]` raises `KeyError` when the keyword is absent. -/
def addToMemstack (st : ChatState) (keystack : Option (List (String × Int)))
    (sentence : String) : Except PyError ChatState :=
  match keystack with
  | none => .ok st
  | some [] => .ok st
  | some ((k, _) :: _) =>
    let top := strUpper k
    match lookupS st.script top with
    | none => .error .keyError
    | some e =>
      match e.memory with
      | none => .ok st
      | some mem =>
        match getResponse mem (some sentence) with
        | .error er => .error er
        | .ok (memresp, _, mem') =>
          let script' := setMemory st.script top mem'
          if memresp = "" then .ok { st with script := script' }
          else .ok { st with script := script',
                             memstack := st.memstack ++ [memresp] }

/-- `Chatbot._fallback_response`: pop the front of the memory stack if
non-empty; otherwise, if `KEYWORD_NONE` is in the module-global default
`script` (note: not the agent's own copy), answer from the agent's
`KEYWORD_NONE` rules; otherwise log and return the empty string. -/
def fallbackResponse (defaultScript : Script) (st : ChatState) :
    Except PyError (String × ChatState) :=
  match st.memstack with
  | r :: rest => .ok (r, { st with memstack := rest })
  | [] =>
    match lookupS defaultScript KEYWORD_NONE with
    | some _ =>
      match getRules st.script KEYWORD_NONE with
      | .error e => .error e
      | .ok rulesO =>
        match getResponseO rulesO (some "") with
        | .error e => .error e
        | .ok (resp, _, rulesO') =>
          .ok (resp, { st with script := writeRules st.script KEYWORD_NONE rulesO' })
    | none => .ok ("", st)

/-- Truthiness of the keystack local in `Chatbot.__call__` (`None` and the
empty list are falsy). -/
def keystackTruthy : Option (List (String × Int)) → Bool
  | none => false
  | some l => !l.isEmpty

/-- The sentence loop of `Chatbot.__call__`: scan sentences in order and
keep the first whose keystack is truthy; if none is, the loop leaves the
values of the last iteration in scope. -/
def pickScan : List (Option (List (String × Int)) × String) →
    Option (List (String × Int)) × String
  | [] => (none, "")
  | [x] => x
  | x :: y :: rest =>
    if keystackTruthy x.1 then x else pickScan (y :: rest)

/-- Segmentation, tokenization and scanning of one input message, as
performed by `Chatbot.__call__` before response generation. -/
def scanMsg (script : Script) (msg : String) :
    Option (List (String × Int)) × String :=
  pickScan ((getSentences msg).map fun s => scanSentence script (getTokens s))

/-- `Chatbot.__call__`.  `msg` is `none` for Python `None`.  The result is
`none` if the redirection loop spent all its fuel, otherwise the response
string and the successor state (or the Python exception raised). -/
def respond (fuel : Nat) (defaultScript : Script) (st : ChatState)
    (msg : Option String) : Option (Except PyError (String × ChatState)) :=
  if msg = none ∨ msg = some "" then
    match getRules st.script KEYWORD_START with
    | .error e => some (.error e)
    | .ok rulesO =>
      match getResponseO rulesO msg with
      | .error e => some (.error e)
      | .ok (resp, _, rulesO') =>
        some (.ok (resp, { st with script := writeRules st.script KEYWORD_START rulesO' }))
  else
    if keystackTruthy (scanMsg st.script (msg.getD "")).1 then
      match addToMemstack st (scanMsg st.script (msg.getD "")).1
          (scanMsg st.script (msg.getD "")).2 with
      | .error e => some (.error e)
      | .ok st1 =>
        match processKeystack fuel (scanMsg st.script (msg.getD "")).1 st1.script
            (scanMsg st.script (msg.getD "")).2 with
        | none => none
        | some (.error e) => some (.error e)
        | some (.ok (resp, script', _)) =>
          let st2 := { st1 with script := script' }
          if resp = "" then
            match fallbackResponse defaultScript st2 with
            | .error e => some (.error e)
            | .ok (r, st3) => some (.ok (r, st3))
          else some (.ok (resp, st2))
    else
      match fallbackResponse defaultScript st with
      | .error e => some (.error e)
      | .ok (r, st3) => some (.ok (r, st3))

/-- A one-keyword script whose only reassembly template redirects to the
keyword itself: the shortest redirection cycle (`N = 1`). -/
def cycRule : TRule := ⟨none, ["=A"], none⟩

/-- The cyclic script for `cycRule`. -/
def cycScript : Script := [("A", { rules := some [cycRule] })]

/-- The detected keywords of a token sequence in arrival order: the
uppercased tokens that are script keywords bearing rules, paired with their
rank.  This is claim C3's notion of a detection. -/
def detections (script : Script) (tokens : List String) : List (String × Int) :=
  tokens.filterMap fun tok =>
    match lookupS script (strUpper tok) with
    | none => none
    | some e =>
      match e.rules with
      | none => none
      | some _ => some (strUpper tok, e.rank.getD 0)

/-- Modelled from the spec, for comparison with the code: the keystack
policy exactly as claim C3 words it — the first detected keyword starts the
stack; a later detection goes to the front if and only if its rank strictly
exceeds the rank of the current front entry, and to the back otherwise. -/
def specInsert (acc : Option (List (String × Int))) (kr : String × Int) :
    Option (List (String × Int)) :=
  match acc with
  | none => some [kr]
  | some [] => some [kr]
  | some (front :: rest) =>
    if kr.2 > front.2 then some (kr :: front :: rest)
    else some (front :: rest ++ [kr])

/-- `Chatbot._scan_sentence` viewed as a method of the agent: it reads
`self._script` and touches no other state, so its faithful embedding pairs
the scan result with the unchanged state. -/
def scanSentenceM (st : ChatState) (tokens : List String) :
    (Option (List (String × Int)) × String) × ChatState :=
  (scanSentence st.script tokens, st)

/-- Concrete start rule for witnesses. -/
def startRuleW : TRule := ⟨none, ["Hi there"], none⟩

/-- Concrete `NONE` rule for witnesses. -/
def noneRuleW : TRule := ⟨none, ["Please go on", "I see"], none⟩

/-- Concrete rule whose sole template is the `NEWKEY` sentinel. -/
def newkeyRuleW : TRule := ⟨none, ["NEWKEY"], none⟩

/-- Concrete well-formed script for witnesses. -/
def wScript : Script :=
  [("", { rules := some [startRuleW] }), ("NONE", { rules := some [noneRuleW] })]

/-- `wScript` extended with a keyword whose only template is `NEWKEY`. -/
def w8Script : Script :=
  [("", { rules := some [startRuleW] }), ("NONE", { rules := some [noneRuleW] }),
   ("XX", { rules := some [newkeyRuleW] })]

/-- Concrete script that omits the reserved `NONE` keyword. -/
def w10Script : Script := [("", { rules := some [startRuleW] })]

/-- The turn's memory-stack growth provenance (claim C7): the accepted
keystack of the message has a head keyword whose entry carries memory
rules, and `Chatbot._get_response` on those rules over the accepted altered
sentence yields the recorded response. -/
def memFromHead (st : ChatState) (msg : Option String) (r : String) : Prop :=
  ∃ k rk rest e mem ru mem',
    (scanMsg st.script (msg.getD "")).1 = some ((k, rk) :: rest) ∧
    lookupS st.script (strUpper k) = some e ∧
    e.memory = some mem ∧
    getResponse mem (some (scanMsg st.script (msg.getD "")).2) = .ok (r, ru, mem')

theorem whileRedirect_cyc (n : Nat) :
    whileRedirect n cycScript "=A" (some cycRule) "a" = none :=
  match n with
  | 0 => rfl
  | n + 1 => whileRedirect_cyc n

/-- Claim C1: the spec demands that on a script with a redirection cycle the
rule engine terminate and fall through to the fallback path.  The source has
no iteration cap on the `while resp.startswith("=")` loop, so on the cyclic
script it never exits the loop: for every fuel bound the fuelled embedding
of `Chatbot._process_keystack` reports the loop still running.  The claim is
right about the intended behaviour and the code is wrong (spec section 4.3
step 5 and section 5 require the cap). -/
theorem claim_C1_redirection_cycle_loops_forever (fuel : Nat) :
    processKeystack fuel (some [("A", 0)]) cycScript "a" = none := by
  have h : processKeystack fuel (some [("A", 0)]) cycScript "a"
      = (match whileRedirect fuel cycScript "=A" (some cycRule) "a" with
         | none => none
         | some (.error e) => some (.error e)
         | some (.ok (resp', script'', sentence')) =>
           if resp' = "" then processKeystackGo fuel [] script'' sentence'
           else some (.ok (resp', script'', sentence'))) := rfl
  rw [h, whileRedirect_cyc fuel]

theorem rotate_ne_nil {l : List α} (h : l ≠ []) (n : Nat) : l.rotate n ≠ [] :=
  fun hc => h (List.rotate_eq_nil_iff.mp hc)

theorem rotate_head_getD {l : List String} (h : l ≠ []) {n : Nat} {t : String}
    {ts : List String} (hr : l.rotate n = t :: ts) : t = l.getD (n % l.length) "" := by
  have hlen : 0 < l.length := List.length_pos.mpr h
  have h1 : (l.rotate n).head? = some t := by rw [hr]; rfl
  rw [← List.rotate_mod, List.head?_rotate (Nat.mod_lt _ hlen)] at h1
  simp [List.getD_eq_getElem?_getD, h1]

theorem rotate_tail_append {l : List String} {n : Nat} {t : String}
    {ts : List String} (hr : l.rotate n = t :: ts) : ts ++ [t] = l.rotate (n + 1) := by
  have h1 : (t :: ts).rotate 1 = ts ++ [t] := by
    rw [List.rotate_cons_succ, List.rotate_zero]
  rw [← h1, ← hr, List.rotate_rotate]

/-- Claim C2: each time a rule is selected by `Chatbot._get_response`, the
head reassembly template is returned and moved to the tail of the list, so
after `n` prior selections the list is the `n`-th rotation and the template
returned is the one at index `n` modulo the list length: `k` consecutive
selections of a rule with `k` templates yield each template exactly once in
declared order before any repeats.  `preRules` is an arbitrary prefix of
rules whose decompositions do not match the sentence, so the stated rule is
the one selected. -/
theorem claim_C2_reassembly_round_robin (preRules : List TRule)
    (l : List String) (pr : Option String) (s : String) (n : Nat)
    (hl : l ≠ [])
    (hpre : ∀ r ∈ preRules, ∃ d, r.decomposition = some d ∧ d.search s = false) :
    getResponse (preRules ++ [⟨none, l.rotate n, pr⟩]) (some s)
      = .ok (l.getD (n % l.length) "",
             some ⟨none, l.rotate (n + 1), pr⟩,
             preRules ++ [⟨none, l.rotate (n + 1), pr⟩]) := by
  induction preRules with
  | nil =>
    obtain ⟨t, ts, hr⟩ : ∃ t ts, l.rotate n = t :: ts := by
      cases hrot : l.rotate n with
      | nil => exact absurd hrot (rotate_ne_nil hl n)
      | cons t ts => exact ⟨t, ts, rfl⟩
    simp only [List.nil_append, hr, getResponse]
    rw [← rotate_head_getD hl hr, ← rotate_tail_append hr]
  | cons r rest ih =>
    obtain ⟨d, hd, hsearch⟩ := hpre r (List.mem_cons_self r rest)
    have ihr := ih (fun r hr => hpre r (List.mem_cons_of_mem _ hr))
    simp only [List.cons_append, getResponse, hd, hsearch, Bool.false_eq_true,
      if_false, List.append_eq, ihr]

/-- Witness for claim C2 at a concrete rule. -/
theorem claim_C2_witness :
    (["a", "b"] ≠ ([] : List String)) ∧
    getResponse [⟨none, ["a", "b"], none⟩] (some "x")
      = .ok ("a", some ⟨none, ["b", "a"], none⟩, [⟨none, ["b", "a"], none⟩]) :=
  ⟨by decide,
   claim_C2_reassembly_round_robin [] ["a", "b"] none "x" 0 (by decide) (by simp)⟩

theorem scanInsert_spec (acc : Option ((String × Int) × List (String × Int)))
    (key : String) (rank : Int) :
    ((scanInsert acc key rank).map fun p => p.1 :: p.2)
      = specInsert (acc.map fun p => p.1 :: p.2) (key, rank) := by
  cases acc with
  | none => rfl
  | some p =>
    obtain ⟨⟨k0, r0⟩, t⟩ := p
    by_cases h : rank > r0
    · simp [scanInsert, specInsert, h]
    · simp [scanInsert, specInsert, h]

theorem detections_cons_none {script : Script} {tok : String} (rest : List String)
    (h : lookupS script (strUpper tok) = none) :
    detections script (tok :: rest) = detections script rest := by
  simp [detections, List.filterMap_cons, h]

theorem detections_cons_norules {script : Script} {tok : String} {e : KeywordEntry}
    (rest : List String) (h : lookupS script (strUpper tok) = some e)
    (hr : e.rules = none) :
    detections script (tok :: rest) = detections script rest := by
  simp [detections, List.filterMap_cons, h, hr]

theorem detections_cons_rules {script : Script} {tok : String} {e : KeywordEntry}
    {rs : List TRule} (rest : List String) (h : lookupS script (strUpper tok) = some e)
    (hr : e.rules = some rs) :
    detections script (tok :: rest)
      = (strUpper tok, e.rank.getD 0) :: detections script rest := by
  simp [detections, List.filterMap_cons, h, hr]

theorem scanGo_cons_none {script : Script} {tok : String} (rest : List String)
    (acc : Option ((String × Int) × List (String × Int))) (alt : List String)
    (h : lookupS script (strUpper tok) = none) :
    scanGo script (tok :: rest) acc alt = scanGo script rest acc (alt ++ [tok]) := by
  simp [scanGo, h]

theorem scanGo_cons_norules {script : Script} {tok : String} {e : KeywordEntry}
    (rest : List String) (acc : Option ((String × Int) × List (String × Int)))
    (alt : List String) (h : lookupS script (strUpper tok) = some e)
    (hr : e.rules = none) :
    scanGo script (tok :: rest) acc alt
      = scanGo script rest acc
          (alt ++ [match e.subst with | some s => s | none => tok]) := by
  simp [scanGo, h, hr]

theorem scanGo_cons_rules {script : Script} {tok : String} {e : KeywordEntry}
    {rs : List TRule} (rest : List String)
    (acc : Option ((String × Int) × List (String × Int))) (alt : List String)
    (h : lookupS script (strUpper tok) = some e) (hr : e.rules = some rs) :
    scanGo script (tok :: rest) acc alt
      = scanGo script rest (scanInsert acc (strUpper tok) (e.rank.getD 0))
          (alt ++ [match e.subst with | some s => s | none => tok]) := by
  simp [scanGo, h, hr]

theorem scanGo_keystack (script : Script) :
    ∀ (ts : List String) (acc : Option ((String × Int) × List (String × Int)))
      (alt : List String),
      (scanGo script ts acc alt).1
        = (detections script ts).foldl specInsert (acc.map fun p => p.1 :: p.2) := by
  intro ts
  induction ts with
  | nil => intro acc alt; rfl
  | cons tok rest ih =>
    intro acc alt
    cases hlk : lookupS script (strUpper tok) with
    | none =>
      rw [scanGo_cons_none rest acc alt hlk, detections_cons_none rest hlk]
      exact ih acc (alt ++ [tok])
    | some e =>
      cases hr : e.rules with
      | none =>
        rw [scanGo_cons_norules rest acc alt hlk hr, detections_cons_norules rest hlk hr]
        exact ih acc _
      | some rs =>
        rw [scanGo_cons_rules rest acc alt hlk hr, detections_cons_rules rest hlk hr,
          List.foldl_cons, ← scanInsert_spec acc (strUpper tok) (e.rank.getD 0)]
        exact ih _ _

/-- Claim C3: for every token sequence, the keystack built by
`Chatbot._scan_sentence` is exactly the left fold of the claim's policy over
the detected keywords — the first detection starts the stack, each later
detection goes to the front if and only if its rank strictly exceeds the
current front rank, and to the back otherwise (no full sort, equal ranks
keep arrival order). -/
theorem claim_C3_keystack_policy (script : Script) (tokens : List String) :
    (scanSentence script tokens).1 = (detections script tokens).foldl specInsert none :=
  scanGo_keystack script tokens none []

theorem scanGo_no_keyword (script : Script) :
    ∀ (ts : List String) (alt : List String),
      (∀ t ∈ ts, lookupS script (strUpper t) = none) →
      scanGo script ts none alt = (none, alt ++ ts) := by
  intro ts
  induction ts with
  | nil => intro alt _; simp [scanGo]
  | cons tok rest ih =>
    intro alt h
    simp only [scanGo]
    rw [h tok (List.mem_cons_self tok rest)]
    rw [ih (alt ++ [tok]) (fun t ht => h t (List.mem_cons_of_mem _ ht))]
    simp

/-- Claim C6: on a token sequence in which no keyword is found (no token
uppercases to a script key), `Chatbot._scan_sentence` returns an absent
keystack and the original tokens rejoined with single spaces, with no
substitution applied. -/
theorem claim_C6_no_keyword_scan (script : Script) (tokens : List String)
    (h : ∀ t ∈ tokens, (lookupS script (strUpper t)).isNone = true) :
    scanSentence script tokens = (none, joinSp tokens) := by
  have h' : ∀ t ∈ tokens, lookupS script (strUpper t) = none :=
    fun t ht => Option.isNone_iff_eq_none.mp (h t ht)
  unfold scanSentence
  rw [scanGo_no_keyword script tokens [] h']
  rfl

/-- Witness for claim C6 on a concrete script and tokens. -/
theorem claim_C6_witness :
    (∀ t ∈ ["xyz", "qq"], (lookupS wScript (strUpper t)).isNone = true) ∧
    scanSentence wScript ["xyz", "qq"] = (none, "xyz qq") :=
  ⟨by decide, claim_C6_no_keyword_scan wScript ["xyz", "qq"] (by decide)⟩

/-- Claim C9: `Chatbot._scan_sentence` never mutates the agent state — for
every state and token sequence the state after scanning, and in particular
the script with every reassembly list, is the state before.  In the
embedding the method only reads `st.script`, so the returned state is the
input state. -/
theorem claim_C9_scan_pure (st : ChatState) (tokens : List String) :
    (scanSentenceM st tokens).2 = st ∧ (scanSentenceM st tokens).2.script = st.script :=
  ⟨rfl, rfl⟩

@[simp] theorem strUpper_START : strUpper KEYWORD_START = KEYWORD_START := rfl

@[simp] theorem strUpper_NONE : strUpper KEYWORD_NONE = KEYWORD_NONE := rfl

/-- Claim C5: on empty (`""`) or absent (`None`) input, `Chatbot.__call__`
takes the session-start branch, which never consults the segmenter or the
scanner (its embedding references neither `getSentences` nor `getTokens`),
and the response is the head reassembly template of the start keyword's
first rule — for a fresh agent, the first template verbatim. -/
theorem claim_C5_empty_input_start_message (fuel : Nat) (defaultScript : Script)
    (script : Script) (memstack : List String) (e : KeywordEntry)
    (pr : Option String) (t : String) (ts : List String) (more : List TRule)
    (hlk : lookupS script KEYWORD_START = some e)
    (hrules : e.rules = some (⟨none, t :: ts, pr⟩ :: more)) :
    (∃ st1, respond fuel defaultScript ⟨script, memstack⟩ none
        = some (.ok (t, st1)))
    ∧ (∃ st2, respond fuel defaultScript ⟨script, memstack⟩ (some "")
        = some (.ok (t, st2))) := by
  constructor
  · refine ⟨⟨setRules script (strUpper KEYWORD_START)
      (⟨none, ts ++ [t], pr⟩ :: more), memstack⟩, ?_⟩
    unfold respond
    rw [if_pos (Or.inl rfl)]
    simp [getRules, hlk, hrules, getResponseO, getResponse, writeRules]
  · refine ⟨⟨setRules script (strUpper KEYWORD_START)
      (⟨none, ts ++ [t], pr⟩ :: more), memstack⟩, ?_⟩
    unfold respond
    rw [if_pos (Or.inr rfl)]
    simp [getRules, hlk, hrules, getResponseO, getResponse, writeRules]

/-- Witness for claim C5 on a concrete fresh agent. -/
theorem claim_C5_witness :
    lookupS wScript KEYWORD_START = some { rules := some [startRuleW] } ∧
    ((∃ st1, respond 1 wScript ⟨wScript, []⟩ none = some (.ok ("Hi there", st1)))
      ∧ (∃ st2, respond 1 wScript ⟨wScript, []⟩ (some "")
          = some (.ok ("Hi there", st2)))) :=
  ⟨rfl, claim_C5_empty_input_start_message 1 wScript wScript [] _ none
    "Hi there" [] [] rfl rfl⟩

theorem pickScan_none :
    ∀ xs : List (Option (List (String × Int)) × String),
      (∀ x ∈ xs, x.1 = none) → (pickScan xs).1 = none
  | [], _ => rfl
  | [x], h => h x (List.mem_singleton_self x)
  | x :: y :: rest, h => by
    unfold pickScan
    rw [h x (List.mem_cons_self x (y :: rest))]
    exact pickScan_none (y :: rest) fun z hz => h z (List.mem_cons_of_mem _ hz)

theorem scanMsg_no_keyword (script : Script) (m : String)
    (h : ∀ s ∈ getSentences m, ∀ tok ∈ getTokens s,
      lookupS script (strUpper tok) = none) :
    (scanMsg script m).1 = none := by
  unfold scanMsg
  apply pickScan_none
  intro x hx
  obtain ⟨s, hs, hxeq⟩ := List.mem_map.mp hx
  have := claim_C6_no_keyword_scan script (getTokens s)
    (fun tok htok => Option.isNone_iff_eq_none.mpr (h s hs tok htok))
  rw [← hxeq, this]

theorem respond_fallback (fuel : Nat) (defaultScript : Script) (st : ChatState)
    (m : String) (hm : m ≠ "") (hks : (scanMsg st.script m).1 = none) :
    respond fuel defaultScript st (some m)
      = (match fallbackResponse defaultScript st with
         | .error e => some (.error e)
         | .ok (r, st3) => some (.ok (r, st3))) := by
  unfold respond
  rw [if_neg (by simp [hm])]
  simp only [Option.getD_some]
  rw [hks]
  rfl

/-- Claim C4: for a non-empty input containing no script-known keyword under
case-insensitive lookup, `Chatbot.__call__` responds with the front of the
memory stack (popped) when it is non-empty, and otherwise from the
no-understanding keyword's rules; with well-formed `NONE` rules and the
memory-stack non-emptiness invariant the result is never the empty
string. -/
theorem claim_C4_no_keyword_fallback (fuel : Nat) (defaultScript : Script)
    (st : ChatState) (m : String) (eD eN : KeywordEntry) (prN : Option String)
    (t : String) (ts : List String) (moreN : List TRule)
    (hm : m ≠ "")
    (htok : ∀ s ∈ getSentences m, ∀ tok ∈ getTokens s,
      (lookupS st.script (strUpper tok)).isNone = true)
    (hmemne : ∀ x ∈ st.memstack, x ≠ "")
    (hD : lookupS defaultScript KEYWORD_NONE = some eD)
    (hN : lookupS st.script KEYWORD_NONE = some eN)
    (hNrules : eN.rules = some (⟨none, t :: ts, prN⟩ :: moreN))
    (ht : t ≠ "") :
    ∃ resp st2, respond fuel defaultScript st (some m) = some (.ok (resp, st2)) ∧
      resp ≠ "" ∧
      (st.memstack.head? = some resp ∨ (st.memstack = [] ∧ resp = t)) := by
  have hks : (scanMsg st.script m).1 = none :=
    scanMsg_no_keyword st.script m
      (fun s hs tok htk => Option.isNone_iff_eq_none.mp (htok s hs tok htk))
  have hf := respond_fallback fuel defaultScript st m hm hks
  cases hms : st.memstack with
  | cons r rest =>
    refine ⟨r, { st with memstack := rest }, ?_,
      hmemne r (by rw [hms]; exact List.mem_cons_self r rest), Or.inl rfl⟩
    rw [hf]
    unfold fallbackResponse
    rw [hms]
  | nil =>
    refine ⟨t, ⟨writeRules st.script KEYWORD_NONE
      (some (⟨none, ts ++ [t], prN⟩ :: moreN)), st.memstack⟩, ?_, ht,
      Or.inr ⟨rfl, rfl⟩⟩
    rw [hf]
    unfold fallbackResponse
    rw [hms, hD]
    simp [getRules, hN, hNrules, getResponseO, getResponse]

/-- Witness for claim C4 on a concrete keyword-free input. -/
theorem claim_C4_witness :
    ("xyz" : String) ≠ "" ∧
    ∃ resp st2, respond 1 wScript ⟨wScript, []⟩ (some "xyz")
        = some (.ok (resp, st2)) ∧
      resp ≠ "" ∧
      (([] : List String).head? = some resp ∨ (([] : List String) = [] ∧ resp = "Please go on")) :=
  ⟨by decide,
   claim_C4_no_keyword_fallback 1 wScript ⟨wScript, []⟩ "xyz"
     { rules := some [noneRuleW] } { rules := some [noneRuleW] } none
     "Please go on" ["I see"] [] (by decide) (by decide) (by simp) rfl rfl rfl
     (by decide)⟩

/-- Claim C10: with an agent script that omits the reserved `NONE` keyword
while the module-level default script contains it, a turn that reaches the
fallback path with an empty memory stack raises `TypeError`: the existence
check consults the module-global script but `_get_rules` reads the agent's
own copy, where `.get` yields `None` and the `in` test on `None` fails. -/
theorem claim_C10_missing_none_raises (fuel : Nat) (defaultScript : Script)
    (st : ChatState) (m : String)
    (hm : m ≠ "")
    (htok : ∀ s ∈ getSentences m, ∀ tok ∈ getTokens s,
      (lookupS st.script (strUpper tok)).isNone = true)
    (hmem : st.memstack = [])
    (hnone : (lookupS st.script KEYWORD_NONE).isNone = true)
    (hdef : (lookupS defaultScript KEYWORD_NONE).isSome = true) :
    respond fuel defaultScript st (some m) = some (.error .typeError) := by
  have hks : (scanMsg st.script m).1 = none :=
    scanMsg_no_keyword st.script m
      (fun s hs tok htk => Option.isNone_iff_eq_none.mp (htok s hs tok htk))
  rw [respond_fallback fuel defaultScript st m hm hks]
  obtain ⟨eD, hD⟩ := Option.isSome_iff_exists.mp hdef
  unfold fallbackResponse
  rw [hmem, hD]
  simp [getRules, Option.isNone_iff_eq_none.mp hnone]

/-- Witness for claim C10 on a concrete agent lacking `NONE`. -/
theorem claim_C10_witness :
    (lookupS w10Script KEYWORD_NONE).isNone = true ∧
    respond 1 wScript ⟨w10Script, []⟩ (some "xyz") = some (.error .typeError) :=
  ⟨by decide,
   claim_C10_missing_none_raises 1 wScript ⟨w10Script, []⟩ "xyz" (by decide)
     (by decide) rfl (by decide) (by decide)⟩

theorem lookupS_setRules_ne (key k2 : String) (rs : List TRule) (h : key ≠ k2) :
    ∀ s : Script, lookupS (setRules s key rs) k2 = lookupS s k2 := by
  intro s
  induction s with
  | nil => rfl
  | cons p rest ih =>
    obtain ⟨k, e⟩ := p
    by_cases hk : k = key
    · subst hk
      have hne : k ≠ k2 := fun hc => h hc
      simp [setRules, lookupS, hne]
    · by_cases hk2 : k = k2
      · subst hk2
        simp [setRules, lookupS, hk]
      · simp [setRules, lookupS, hk, hk2, ih]

/-- Claim C8: when the accepted keystack is a single keyword whose only
matching rule's sole reassembly template is the `NEWKEY` sentinel,
`Chatbot.__call__` answers from the fallback path — the popped memory-stack
head or the no-understanding keyword's rules — and never the literal string
`NEWKEY` (given that neither the memory stack nor the `NONE` head template
holds that literal). -/
theorem claim_C8_newkey_yields_fallback (fuel : Nat) (defaultScript : Script)
    (st : ChatState) (m k : String) (rk : Int) (altered : String)
    (eK eD eN : KeywordEntry) (prK prN : Option String)
    (t : String) (ts : List String) (moreN : List TRule)
    (hm : m ≠ "")
    (hscan : scanMsg st.script m = (some [(k, rk)], altered))
    (hK : lookupS st.script (strUpper k) = some eK)
    (hKrules : eK.rules = some [⟨none, ["NEWKEY"], prK⟩])
    (hKmem : eK.memory = none)
    (hKne : strUpper k ≠ KEYWORD_NONE)
    (hD : lookupS defaultScript KEYWORD_NONE = some eD)
    (hN : lookupS st.script KEYWORD_NONE = some eN)
    (hNrules : eN.rules = some (⟨none, t :: ts, prN⟩ :: moreN))
    (htne : t ≠ "NEWKEY")
    (hmemne : ∀ x ∈ st.memstack, x ≠ "NEWKEY") :
    ∃ resp st2, respond fuel defaultScript st (some m) = some (.ok (resp, st2)) ∧
      resp ≠ "NEWKEY" ∧ (st.memstack.head? = some resp ∨ resp = t) := by
  have hscan1 : (scanMsg st.script m).1 = some [(k, rk)] := by rw [hscan]
  have hscan2 : (scanMsg st.script m).2 = altered := by rw [hscan]
  have hadd : addToMemstack st (some [(k, rk)]) altered = .ok st := by
    simp only [addToMemstack, hK, hKmem]
  have hpk : processKeystack fuel (some [(k, rk)]) st.script altered
      = some (.ok ("", setRules st.script (strUpper k) [⟨none, ["NEWKEY"], prK⟩],
          altered)) := by
    simp [processKeystack, processKeystackGo, getRules, hK, hKrules,
      getResponseO, getResponse, writeRules]
  have hcond : ¬(some m = none ∨ some m = some "") := by simp [hm]
  have hlkN : lookupS (setRules st.script (strUpper k) [⟨none, ["NEWKEY"], prK⟩])
      KEYWORD_NONE = some eN := by
    rw [lookupS_setRules_ne (strUpper k) KEYWORD_NONE _ hKne st.script, hN]
  cases hms : st.memstack with
  | cons r rest =>
    refine ⟨r, ⟨setRules st.script (strUpper k) [⟨none, ["NEWKEY"], prK⟩], rest⟩, ?_,
      hmemne r (by rw [hms]; exact List.mem_cons_self r rest), Or.inl rfl⟩
    unfold respond
    rw [if_neg hcond]
    simp only [Option.getD_some, hscan1, hscan2, hadd, hpk, keystackTruthy]
    unfold fallbackResponse
    rw [hms]
    simp
  | nil =>
    refine ⟨t, ⟨setRules (setRules st.script (strUpper k) [⟨none, ["NEWKEY"], prK⟩])
        KEYWORD_NONE (⟨none, ts ++ [t], prN⟩ :: moreN), st.memstack⟩, ?_, htne,
      Or.inr rfl⟩
    unfold respond
    rw [if_neg hcond]
    simp only [Option.getD_some, hscan1, hscan2, hadd, hpk, keystackTruthy]
    unfold fallbackResponse
    rw [hms, hD]
    simp [getRules, hlkN, hNrules, getResponseO, getResponse, writeRules, hms]

/-- Witness for claim C8 on a concrete script with an `XX -> NEWKEY` rule. -/
theorem claim_C8_witness :
    scanMsg w8Script "xx" = (some [("XX", 0)], "xx") ∧
    ∃ resp st2, respond 1 w8Script ⟨w8Script, []⟩ (some "xx")
        = some (.ok (resp, st2)) ∧
      resp ≠ "NEWKEY" ∧
      (([] : List String).head? = some resp ∨ resp = "Please go on") :=
  ⟨rfl,
   claim_C8_newkey_yields_fallback 1 w8Script ⟨w8Script, []⟩ "xx" "XX" 0 "xx"
     { rules := some [newkeyRuleW] } { rules := some [noneRuleW] }
     { rules := some [noneRuleW] } none none "Please go on" ["I see"] []
     (by decide) rfl rfl rfl rfl (by decide) rfl rfl rfl (by decide) (by simp)⟩

theorem addToMemstack_cases (st : ChatState) (ks : Option (List (String × Int)))
    (alt : String) (st1 : ChatState) (h : addToMemstack st ks alt = .ok st1) :
    st1.memstack = st.memstack ∨
    ∃ k rk rest e mem r ru mem', ks = some ((k, rk) :: rest) ∧
      lookupS st.script (strUpper k) = some e ∧ e.memory = some mem ∧
      getResponse mem (some alt) = .ok (r, ru, mem') ∧ r ≠ "" ∧
      st1.memstack = st.memstack ++ [r] := by
  cases ks with
  | none =>
    simp only [addToMemstack, Except.ok.injEq] at h
    left; rw [← h]
  | some l =>
    cases l with
    | nil =>
      simp only [addToMemstack, Except.ok.injEq] at h
      left; rw [← h]
    | cons p rest =>
      obtain ⟨k, rk⟩ := p
      cases hlk : lookupS st.script (strUpper k) with
      | none =>
        simp only [addToMemstack, hlk] at h
        exact Except.noConfusion h
      | some e =>
        cases hmem : e.memory with
        | none =>
          simp only [addToMemstack, hlk, hmem, Except.ok.injEq] at h
          left; rw [← h]
        | some mem =>
          cases hg : getResponse mem (some alt) with
          | error er =>
            simp only [addToMemstack, hlk, hmem, hg] at h
            exact Except.noConfusion h
          | ok trip =>
            obtain ⟨memresp, ru, mem'⟩ := trip
            by_cases hr : memresp = ""
            · simp only [addToMemstack, hlk, hmem, hg, if_pos hr,
                Except.ok.injEq] at h
              left; rw [← h]
            · simp only [addToMemstack, hlk, hmem, hg, if_neg hr,
                Except.ok.injEq] at h
              right
              exact ⟨k, rk, rest, e, mem, memresp, ru, mem', rfl, hlk, hmem, hg,
                hr, by rw [← h]⟩

theorem fallback_cases (d : Script) (st : ChatState) (r : String)
    (st3 : ChatState) (h : fallbackResponse d st = .ok (r, st3)) :
    (st.memstack.head? = some r ∧ st3.memstack = st.memstack.drop 1) ∨
    (st.memstack = [] ∧ st3.memstack = st.memstack) := by
  cases hms : st.memstack with
  | cons x rest =>
    simp only [fallbackResponse, hms, Except.ok.injEq, Prod.mk.injEq] at h
    obtain ⟨h1, h2⟩ := h
    left
    rw [← h2, h1]
    exact ⟨rfl, rfl⟩
  | nil =>
    right
    refine ⟨rfl, ?_⟩
    cases hd : lookupS d KEYWORD_NONE with
    | none =>
      simp only [fallbackResponse, hms, hd, Except.ok.injEq, Prod.mk.injEq] at h
      rw [← h.2, hms]
    | some eD =>
      cases hgr : getRules st.script KEYWORD_NONE with
      | error e2 =>
        simp only [fallbackResponse, hms, hd, hgr] at h
        exact Except.noConfusion h
      | ok rulesO =>
        cases hgo : getResponseO rulesO (some "") with
        | error e2 =>
          simp only [fallbackResponse, hms, hd, hgr, hgo] at h
          exact Except.noConfusion h
        | ok trip =>
          obtain ⟨r2, ru, rulesO'⟩ := trip
          simp only [fallbackResponse, hms, hd, hgr, hgo, Except.ok.injEq,
            Prod.mk.injEq] at h
          rw [← h.2]

/-- Claim C7: in every successful turn the memory stack either stays as it
is, grows by at most one entry appended at the tail — a non-empty response
produced by the memory rules of the head keystack keyword, recorded before
the rule engine runs — or shrinks by popping its front exactly when the rule
engine produced no response, the popped entry becoming the turn's response
(possibly after the same turn's single append). -/
theorem claim_C7_memstack_evolution (fuel : Nat) (defaultScript : Script)
    (st : ChatState) (msg : Option String) (resp : String) (st' : ChatState)
    (h : respond fuel defaultScript st msg = some (.ok (resp, st'))) :
    st'.memstack = st.memstack
    ∨ (st.memstack.head? = some resp ∧ st'.memstack = st.memstack.drop 1)
    ∨ (∃ r, r ≠ "" ∧ memFromHead st msg r ∧
        (st'.memstack = st.memstack ++ [r]
         ∨ ((st.memstack ++ [r]).head? = some resp
             ∧ st'.memstack = (st.memstack ++ [r]).drop 1))) := by
  unfold respond at h
  by_cases hempty : msg = none ∨ msg = some ""
  · rw [if_pos hempty] at h
    cases hgr : getRules st.script KEYWORD_START with
    | error e2 =>
      simp only [hgr] at h
      exact absurd h (by simp)
    | ok rulesO =>
      cases hgo : getResponseO rulesO msg with
      | error e2 =>
        simp only [hgr, hgo] at h
        exact absurd h (by simp)
      | ok trip =>
        obtain ⟨r0, ru, rulesO'⟩ := trip
        simp only [hgr, hgo, Option.some.injEq, Except.ok.injEq,
          Prod.mk.injEq] at h
        left; rw [← h.2]
  · rw [if_neg hempty] at h
    by_cases htr : keystackTruthy (scanMsg st.script (msg.getD "")).1 = true
    · rw [if_pos htr] at h
      cases hadd : addToMemstack st (scanMsg st.script (msg.getD "")).1
          (scanMsg st.script (msg.getD "")).2 with
      | error e2 =>
        simp only [hadd] at h
        exact absurd h (by simp)
      | ok st1 =>
        cases hpk : processKeystack fuel (scanMsg st.script (msg.getD "")).1
            st1.script (scanMsg st.script (msg.getD "")).2 with
        | none =>
          simp only [hadd, hpk] at h
          exact Option.noConfusion h
        | some res =>
          cases res with
          | error e2 =>
            simp only [hadd, hpk] at h
            exact absurd h (by simp)
          | ok trip =>
            obtain ⟨r1, script', sent'⟩ := trip
            have hac := addToMemstack_cases st _ _ st1 hadd
            by_cases hr1 : r1 = ""
            · simp only [hadd, hpk, if_pos hr1] at h
              cases hfb : fallbackResponse defaultScript
                  { st1 with script := script' } with
              | error e2 =>
                simp only [hfb] at h
                exact absurd h (by simp)
              | ok pr =>
                obtain ⟨r2, st3⟩ := pr
                simp only [hfb, Option.some.injEq, Except.ok.injEq,
                  Prod.mk.injEq] at h
                obtain ⟨hre, hst⟩ := h
                have hfc := fallback_cases defaultScript _ r2 st3 hfb
                rcases hac with hA | ⟨k, rk, rest, e, mem, r, ru, mem', hks,
                  hlk, hm2, hg, hrne, hA⟩
                · rcases hfc with ⟨hh, hd2⟩ | ⟨hh, hd2⟩
                  · right; left
                    constructor
                    · rw [← hA, ← hre]
                      exact hh
                    · rw [← hst, hd2]
                      rw [show ({ st1 with script := script' } : ChatState).memstack
                        = st1.memstack from rfl, hA]
                  · left
                    rw [← hst, hd2]
                    rw [show ({ st1 with script := script' } : ChatState).memstack
                      = st1.memstack from rfl, hA]
                · right; right
                  refine ⟨r, hrne, ⟨k, rk, rest, e, mem, ru, mem', hks, hlk,
                    hm2, hg⟩, ?_⟩
                  rcases hfc with ⟨hh, hd2⟩ | ⟨hh, hd2⟩
                  · right
                    constructor
                    · rw [← hA, ← hre]
                      exact hh
                    · rw [← hst, hd2]
                      rw [show ({ st1 with script := script' } : ChatState).memstack
                        = st1.memstack from rfl, hA]
                  · exfalso
                    have : st1.memstack = [] := hh
                    rw [hA] at this
                    simp at this
            · simp only [hadd, hpk, if_neg hr1, Option.some.injEq,
                Except.ok.injEq, Prod.mk.injEq] at h
              obtain ⟨hre, hst⟩ := h
              rcases hac with hA | ⟨k, rk, rest, e, mem, r, ru, mem', hks, hlk,
                hm2, hg, hrne, hA⟩
              · left
                rw [← hst]
                rw [show ({ st1 with script := script' } : ChatState).memstack
                  = st1.memstack from rfl, hA]
              · right; right
                refine ⟨r, hrne, ⟨k, rk, rest, e, mem, ru, mem', hks, hlk,
                  hm2, hg⟩, Or.inl ?_⟩
                rw [← hst]
                rw [show ({ st1 with script := script' } : ChatState).memstack
                  = st1.memstack from rfl, hA]
    · rw [if_neg htr] at h
      cases hfb : fallbackResponse defaultScript st with
      | error e2 =>
        simp only [hfb] at h
        exact absurd h (by simp)
      | ok pr =>
        obtain ⟨r2, st3⟩ := pr
        simp only [hfb, Option.some.injEq, Except.ok.injEq, Prod.mk.injEq] at h
        obtain ⟨hre, hst⟩ := h
        have hfc := fallback_cases defaultScript st r2 st3 hfb
        rcases hfc with ⟨hh, hd2⟩ | ⟨hh, hd2⟩
        · right; left
          rw [← hre, ← hst]
          exact ⟨hh, hd2⟩
        · left
          rw [← hst, hd2]

/-- Witness for claim C7 on a concrete empty-input turn. -/
theorem claim_C7_witness :
    ([] : List String) = [] ∨
    (([] : List String).head? = some "Hi there" ∧
      ([] : List String) = ([] : List String).drop 1) ∨
    (∃ r, r ≠ "" ∧ memFromHead ⟨wScript, []⟩ none r ∧
      (([] : List String) = [] ++ [r] ∨
        ((([] : List String) ++ [r]).head? = some "Hi there" ∧
          ([] : List String) = (([] : List String) ++ [r]).drop 1))) :=
  claim_C7_memstack_evolution 0 wScript ⟨wScript, []⟩ none "Hi there"
    ⟨wScript, []⟩ rfl

end Eliza
